import Mathlib

/-
Shallow embedding of `src/vyper/context/namespace.py` (class `Namespace`),
the scoped symbol table of the vyper compiler's semantic analysis.

Modelling conventions:
- Definitions are values of an abstract type `V` (the code never inspects them).
- The Python `dict` is an association list `List (String × V)` with unique keys,
  maintained by `dictSet` (overwrite-in-place or append, like `dict.__setitem__`)
  and `dictDel` (raises `KeyError` when the key is absent, like `del d[k]`).
- `self._scopes : List[Set]` (append/pop at the END in Python) is modelled with
  the HEAD of the list as the innermost (last-pushed) scope; `set.add` is
  `setAdd` (membership-based, no duplicates).
- The external collaborators (type registry, environment provider, builtin
  function registry, opcode table) are a parameter record `Ext`.
- Raising an exception is `Except.error`; a function that returns normally is
  `Except.ok`.  In the source every raise inside `validate_assignment`,
  `__getitem__` and at the top of `__exit__` happens before any mutation, so an
  error result faithfully leaves no mutated state behind (the only exception is
  the `KeyError` inside the deletion loop of `__exit__`, whose partial state no
  theorem below depends on).
- `validate_assignment` has return type `Except err (Option err)`:
  `.ok (some e)` models the source line
  `return StructureException(...)` which RETURNS the exception object instead
  of raising it (the caller `__setitem__` discards the returned value).
-/

namespace VyperNS

/-- The exception kinds of `vyper.exceptions` used by `namespace.py`, plus the
Python builtin `KeyError` that `del self[key]` / `dict.__getitem__` can raise.
`namespaceCollisionDeclared` carries the prior definition, mirroring the
message `f"has already been declared as a {obj}"`. -/
inductive VyperError (V : Type) where
  | structureExceptionInvalidChars (attr : String)
  | structureExceptionReserved (attr : String)
  | namespaceCollisionBuiltin (attr : String)
  | namespaceCollisionDeclared (attr : String) (prior : V)
  | undeclaredDefinition (attr : String)
  | compilerPanic (msg : String)
  | keyError (key : String)
deriving DecidableEq

/-- User-facing error kinds, per the spec taxonomy: `StructureException`,
`NamespaceCollision`, `UndeclaredDefinition` are user-facing; `CompilerPanic`
(internal-consistency failure) and Python `KeyError` are not. -/
def isUserFacing {V : Type} : VyperError V → Bool
  | .structureExceptionInvalidChars _ => true
  | .structureExceptionReserved _ => true
  | .namespaceCollisionBuiltin _ => true
  | .namespaceCollisionDeclared _ _ => true
  | .undeclaredDefinition _ => true
  | .compilerPanic _ => false
  | .keyError _ => false

/-- The external collaborators of the `Namespace` class: the four bootstrap
provider mappings (`get_types`, `get_constant_vars`, `get_builtin_functions`,
`get_mutable_vars`) and the opcode table `OPCODES` (only its key set matters:
the code tests `attr.upper() in OPCODES`). -/
structure Ext (V : Type) where
  types : List (String × V)
  constantVars : List (String × V)
  builtinFunctions : List (String × V)
  mutableVars : List (String × V)
  opcodes : List String

/-- State of a `Namespace` object: the underlying dict plus `_scopes`.
`scopes` head = innermost (last-pushed) scope set. -/
structure NS (V : Type) where
  map : List (String × V)
  scopes : List (List String)
deriving DecidableEq

/-- `k in d` on a Python dict. -/
def dictContains {V : Type} (m : List (String × V)) (k : String) : Bool :=
  m.any (fun p => p.1 == k)

/-- `d.get(k)` on a Python dict (as an `Option`). -/
def dictLookup {V : Type} (m : List (String × V)) (k : String) : Option V :=
  (m.find? (fun p => p.1 == k)).map Prod.snd

/-- `d[k] = v` on a Python dict: overwrite in place if present, else append. -/
def dictSet {V : Type} (m : List (String × V)) (k : String) (v : V) :
    List (String × V) :=
  if dictContains m k then m.map (fun p => if p.1 == k then (k, v) else p)
  else m ++ [(k, v)]

/-- `del d[k]` on a Python dict: `KeyError` when absent. -/
def dictDel {V : Type} (m : List (String × V)) (k : String) :
    Except (VyperError V) (List (String × V)) :=
  if dictContains m k then .ok (m.filter (fun p => !(p.1 == k)))
  else .error (.keyError k)

/-- `s.add(a)` on a Python set (sets modelled as duplicate-free lists). -/
def setAdd (s : List String) (a : String) : List String :=
  if a ∈ s then s else a :: s

/-- First character class of the identifier regex: `[_a-zA-Z]`. -/
def isIdStart (c : Char) : Bool :=
  c == Char.ofNat 95 || (65 ≤ c.toNat && c.toNat ≤ 90) ||
    (97 ≤ c.toNat && c.toNat ≤ 122)

/-- Later character class of the identifier regex: `[a-zA-Z0-9_]`. -/
def isIdCont (c : Char) : Bool :=
  isIdStart c || (48 ≤ c.toNat && c.toNat ≤ 57)

/-- `re.match("^[_a-zA-Z][a-zA-Z0-9_]*$", s)` as a Bool.  Note Python `$` also
matches just before a single trailing newline, hence the second disjunct. -/
def regexMatch (s : String) : Bool :=
  match s.data with
  | [] => false
  | c :: rest =>
      isIdStart c &&
        (rest.all isIdCont ||
          (rest.getLast? == some (Char.ofNat 10) && rest.dropLast.all isIdCont))

/-- The module-level constant `RESERVED_KEYWORDS`, transcribed verbatim. -/
def RESERVED_KEYWORDS : List String :=
  ["public", "external", "nonpayable", "constant", "internal", "payable",
   "nonreentrant",
   "if", "for", "while", "until", "pass", "def",
   "send", "selfdestruct", "assert", "raise", "throw",
   "init", "_init_", "___init___", "____init____",
   "default", "_default_", "___default___", "____default____",
   "chainid", "blockhash", "timestamp", "timedelta",
   "true", "false",
   "this", "continue", "range",
   "none",
   "indexed",
   "ether", "wei", "finney", "szabo", "shannon", "lovelace", "ada", "babbage",
   "gwei", "kwei", "mwei", "twei", "pwei",
   "balance", "codesize", "is_contract",
   "units",
   "zero_address", "empty_bytes32", "max_int128", "min_int128", "max_decimal",
   "min_decimal", "max_uint256", "zero_wei"]

/-- ASCII lowercasing of a character, as `str.lower` does on ASCII input. -/
def asciiLower (c : Char) : Char :=
  if 65 ≤ c.toNat && c.toNat ≤ 90 then Char.ofNat (c.toNat + 32) else c

/-- ASCII uppercasing of a character, as `str.upper` does on ASCII input. -/
def asciiUpper (c : Char) : Char :=
  if 97 ≤ c.toNat && c.toNat ≤ 122 then Char.ofNat (c.toNat - 32) else c

/-- `attr.lower()`.  ASCII-only is faithful where the code applies it: the
reserved-word check runs only after the identifier regex matched, so every
character of `attr` is then ASCII. -/
def strLower (s : String) : String := ⟨s.data.map asciiLower⟩

/-- `attr.upper()` (same ASCII remark as `strLower`). -/
def strUpper (s : String) : String := ⟨s.data.map asciiUpper⟩

/-- `attr in [x for i in self._scopes for x in i]`: is the name recorded in any
currently-open scope set? -/
def scopesRecord {V : Type} (ns : NS V) (attr : String) : Bool :=
  ns.scopes.any (fun s => s.contains attr)

/-- `Namespace.validate_assignment`.  Return value `.ok (some e)` models the
source BUG at line 85: `return StructureException(...)` returns the exception
object instead of raising it, so validation "passes" for malformed names and
the remaining checks are skipped. -/
def validate_assignment {V : Type} (ext : Ext V) (ns : NS V) (attr : String) :
    Except (VyperError V) (Option (VyperError V)) :=
  if regexMatch attr = false then
    .ok (some (.structureExceptionInvalidChars attr))
  else if dictContains ns.map attr then
    if scopesRecord ns attr = false then
      .error (.namespaceCollisionBuiltin attr)
    else
      match dictLookup ns.map attr with
      | some obj => .error (.namespaceCollisionDeclared attr obj)
      | none => .error (.keyError attr)
  else if ns.scopes.isEmpty then
    .ok none
  else if RESERVED_KEYWORDS.contains (strLower attr) || ext.opcodes.contains (strUpper attr) then
    .error (.structureExceptionReserved attr)
  else
    .ok none

/-- `Namespace.__setitem__` (insert): validate, record the name in the
innermost scope set when one is open, then bind. -/
def setitem {V : Type} (ext : Ext V) (ns : NS V) (attr : String) (obj : V) :
    Except (VyperError V) (NS V) := do
  let _ ← validate_assignment ext ns attr
  let scopes2 := match ns.scopes with
    | [] => []
    | s :: rest => setAdd s attr :: rest
  .ok { map := dictSet ns.map attr obj, scopes := scopes2 }

/-- `Namespace.__getitem__` (lookup): `UndeclaredDefinition` when unbound,
otherwise `dict.__getitem__` (which itself would raise `KeyError` if absent,
an unreachable branch here). -/
def getitem {V : Type} (ns : NS V) (key : String) : Except (VyperError V) V :=
  if dictContains ns.map key then
    match dictLookup ns.map key with
    | some v => .ok v
    | none => .error (.keyError key)
  else .error (.undeclaredDefinition key)

/-- The deletion loop of `Namespace.__exit__`: `for key in popped: del self[key]`. -/
def delAll {V : Type} (m : List (String × V)) (keys : List String) :
    Except (VyperError V) (List (String × V)) :=
  keys.foldlM dictDel m

/-- `Namespace.__exit__` (exit_scope): `CompilerPanic` when no scope is open,
otherwise pop the innermost scope set and delete each of its names. -/
def exitScope {V : Type} (ns : NS V) : Except (VyperError V) (NS V) :=
  match ns.scopes with
  | [] => .error (.compilerPanic "Bad use of namespace as a context manager")
  | s :: rest => do
      let m2 ← delAll ns.map s
      .ok { map := m2, scopes := rest }

/-- `Namespace.update`: inserts each entry through `__setitem__`. -/
def update {V : Type} (ext : Ext V) (ns : NS V) (other : List (String × V)) :
    Except (VyperError V) (NS V) :=
  other.foldlM (fun acc kv => setitem ext acc kv.1 kv.2) ns

/-- `Namespace.enter_scope`: push a new empty scope set; if it is the first
(outermost) scope, bulk-insert the mutable environment vars into it. -/
def enter_scope {V : Type} (ext : Ext V) (ns : NS V) :
    Except (VyperError V) (NS V) :=
  let ns2 : NS V := { map := ns.map, scopes := [] :: ns.scopes }
  if ns2.scopes.length == 1 then update ext ns2 ext.mutableVars
  else .ok ns2

/-- Body of `Namespace.__init__` run on a dict with current contents `m`:
`self._scopes = []` then the three bootstrap provider updates. -/
def namespace_init {V : Type} (ext : Ext V) (m : List (String × V)) :
    Except (VyperError V) (NS V) := do
  let ns1 ← update ext ({ map := m, scopes := [] } : NS V) ext.types
  let ns2 ← update ext ns1 ext.constantVars
  update ext ns2 ext.builtinFunctions

/-- Fresh construction `Namespace()`: a new empty dict, then `__init__`. -/
def mkNamespace {V : Type} (ext : Ext V) : Except (VyperError V) (NS V) :=
  namespace_init ext []

/-- `dict.clear()` (called as `super().clear()`). -/
def dictClear {V : Type} (_ : List (String × V)) : List (String × V) := []

/-- `Namespace.clear`: `super().clear()` then `self.__init__()`. -/
def clearNs {V : Type} (ext : Ext V) (ns : NS V) : Except (VyperError V) (NS V) :=
  namespace_init ext (dictClear ns.map)

/-- The public operations, for statements about reachable states. -/
inductive Op (V : Type) where
  | insertOp (name : String) (d : V)
  | lookupOp (name : String)
  | enterOp
  | exitOp
  | clearOp

/-- One public operation.  `lookupOp` never changes the state. -/
def step {V : Type} (ext : Ext V) (ns : NS V) : Op V → Except (VyperError V) (NS V)
  | .insertOp n d => setitem ext ns n d
  | .lookupOp n => do let _ ← getitem ns n; .ok ns
  | .enterOp => enter_scope ext ns
  | .exitOp => exitScope ns
  | .clearOp => clearNs ext ns

/-- Run a sequence of public operations. -/
def run {V : Type} (ext : Ext V) (ns : NS V) (ops : List (Op V)) :
    Except (VyperError V) (NS V) :=
  ops.foldlM (step ext) ns

/-- The implicit invariant of claim C10: every name recorded in any scope set
is a key of the dict. -/
def scopeInv {V : Type} (ns : NS V) : Bool :=
  ns.scopes.all (fun s => s.all (fun k => dictContains ns.map k))

/-- A concrete collaborator record with empty providers and no opcodes,
used for concrete executions. -/
def ext0 : Ext Nat :=
  { types := [], constantVars := [], builtinFunctions := [], mutableVars := [],
    opcodes := [] }

/-- A collaborator record with one mutable environment variable, for concrete
first-scope executions. -/
def ext1 : Ext Nat :=
  { types := [], constantVars := [], builtinFunctions := [],
    mutableVars := [("self", 7)], opcodes := [] }

/-- A collaborator record with one entry per bootstrap provider, for concrete
construction and reset executions. -/
def ext2 : Ext Nat :=
  { types := [("int128", 1)], constantVars := [("msg", 2)],
    builtinFunctions := [("len", 3)], mutableVars := [], opcodes := [] }

theorem dictContains_nil {V : Type} (k : String) :
    dictContains ([] : List (String × V)) k = false := rfl

theorem dictContains_cons {V : Type} (p : String × V) (t : List (String × V))
    (k : String) :
    dictContains (p :: t) k = (p.1 == k || dictContains t k) := by
  simp [dictContains]

theorem dictLookup_nil {V : Type} (k : String) :
    dictLookup ([] : List (String × V)) k = none := rfl

theorem dictLookup_cons {V : Type} (p : String × V) (t : List (String × V))
    (k : String) :
    dictLookup (p :: t) k = if p.1 == k then some p.2 else dictLookup t k := by
  simp only [dictLookup, List.find?]
  cases hb : (p.1 == k) <;> simp

theorem dictContains_iff_mem {V : Type} (m : List (String × V)) (k : String) :
    dictContains m k = true ↔ k ∈ m.map Prod.fst := by
  simp [dictContains, List.any_eq_true, List.mem_map, beq_iff_eq]

theorem dictLookup_isSome_iff {V : Type} (m : List (String × V)) (k : String) :
    (dictLookup m k).isSome = true ↔ dictContains m k = true := by
  induction m with
  | nil => simp [dictContains, dictLookup]
  | cons p t ih =>
      rw [dictLookup_cons, dictContains_cons]
      by_cases h : p.1 = k
      · simp [h]
      · simp only [beq_iff_eq, h, if_false, Bool.or_eq_true, false_or]
        simpa using ih

theorem dictLookup_none_iff {V : Type} (m : List (String × V)) (k : String) :
    dictLookup m k = none ↔ dictContains m k = false := by
  constructor
  · intro h
    cases hc : dictContains m k
    · rfl
    · have := (dictLookup_isSome_iff m k).mpr hc
      rw [h] at this
      simp at this
  · intro h
    cases hl : dictLookup m k with
    | none => rfl
    | some v =>
        have h2 : (dictLookup m k).isSome = true := by simp [hl]
        rw [(dictLookup_isSome_iff m k).mp h2] at h
        simp at h

theorem dictLookup_append_fresh {V : Type} (m : List (String × V)) (k : String)
    (v : V) (h : dictContains m k = false) :
    dictLookup (m ++ [(k, v)]) k = some v := by
  induction m with
  | nil => simp [dictLookup, List.find?]
  | cons p t ih =>
      rw [dictContains_cons, Bool.or_eq_false_iff] at h
      rw [List.cons_append, dictLookup_cons, h.1]
      simp only [Bool.false_eq_true, if_false]
      exact ih h.2

theorem dictLookup_set_self {V : Type} (m : List (String × V)) (k : String)
    (v : V) (h : dictContains m k = false) :
    dictLookup (dictSet m k v) k = some v := by
  unfold dictSet
  rw [h]
  simp only [Bool.false_eq_true, if_false]
  exact dictLookup_append_fresh m k v h

theorem dictContains_append_single {V : Type} (m : List (String × V))
    (k k2 : String) (v : V) :
    dictContains (m ++ [(k, v)]) k2 = (dictContains m k2 || k == k2) := by
  simp [dictContains, List.any_append]

theorem dictLookup_append_single_ne {V : Type} (m : List (String × V))
    (k k2 : String) (v : V) (h : k ≠ k2) :
    dictLookup (m ++ [(k, v)]) k2 = dictLookup m k2 := by
  induction m with
  | nil =>
      rw [List.nil_append, dictLookup_cons]
      simp [h, dictLookup_nil]
  | cons p t ih =>
      rw [List.cons_append, dictLookup_cons, dictLookup_cons]
      by_cases h1 : p.1 = k2
      · simp [h1]
      · simp only [beq_iff_eq, h1, if_false]
        exact ih

theorem dictContains_filter_ne {V : Type} (m : List (String × V))
    (k k2 : String) (h : k2 ≠ k) :
    dictContains (m.filter (fun p => !(p.1 == k))) k2 = dictContains m k2 := by
  induction m with
  | nil => simp
  | cons p t ih =>
      by_cases hp : p.1 = k
      · rw [List.filter_cons]
        simp only [hp, beq_self_eq_true, Bool.not_true, Bool.false_eq_true,
          if_false]
        rw [dictContains_cons]
        have : (p.1 == k2) = false := by
          simp [hp]
          exact fun e => h e.symm
        rw [this, Bool.false_or]
        exact ih
      · rw [List.filter_cons]
        have : (!(p.1 == k)) = true := by simp [hp]
        rw [this]
        simp only [if_true]
        rw [dictContains_cons, dictContains_cons, ih]

theorem dictDel_ok {V : Type} (m : List (String × V)) (k : String)
    (h : dictContains m k = true) :
    dictDel m k = .ok (m.filter (fun p => !(p.1 == k))) := by
  unfold dictDel
  rw [h]
  simp

theorem delAll_spec {V : Type} (s : List String) :
    ∀ m : List (String × V), s.Nodup → (∀ k ∈ s, dictContains m k = true) →
    delAll m s = .ok (m.filter (fun p => !(s.contains p.1))) := by
  induction s with
  | nil =>
      intro m _ _
      have h1 : m.filter (fun p => !(([] : List String).contains p.1)) = m := by
        simp
      rw [h1]
      rfl
  | cons k s2 ih =>
      intro m hnd hp
      have hk : dictContains m k = true := hp k (List.mem_cons_self k s2)
      have hstep : delAll m (k :: s2) = delAll (m.filter (fun p => !(p.1 == k))) s2 := by
        simp only [delAll, List.foldlM, dictDel_ok m k hk]
        rfl
      rw [hstep]
      have hnd2 : s2.Nodup := (List.nodup_cons.mp hnd).2
      have hknot : k ∉ s2 := (List.nodup_cons.mp hnd).1
      have hp2 : ∀ k2 ∈ s2, dictContains (m.filter (fun p => !(p.1 == k))) k2 = true := by
        intro k2 hk2
        have hne : k2 ≠ k := fun e => hknot (e ▸ hk2)
        rw [dictContains_filter_ne m k k2 hne]
        exact hp k2 (List.mem_cons_of_mem k hk2)
      rw [ih (m.filter (fun p => !(p.1 == k))) hnd2 hp2]
      rw [List.filter_filter]
      congr 1
      apply List.filter_congr
      intro p _
      by_cases hq : p.1 = k <;> by_cases hr : p.1 ∈ s2 <;>
        simp [hq, hr, List.contains_cons, List.elem_eq_mem, beq_eq_decide]

theorem dictContains_filter_mem {V : Type} (m : List (String × V))
    (s : List String) (k : String) (h : s.contains k = true) :
    dictContains (m.filter (fun p => !(s.contains p.1))) k = false := by
  induction m with
  | nil => rfl
  | cons p t ih =>
      rw [List.filter_cons]
      by_cases hp : s.contains p.1 = true
      · simp only [hp, Bool.not_true, Bool.false_eq_true, if_false]
        exact ih
      · have hb0 : s.contains p.1 = false := Bool.eq_false_iff.mpr hp
        rw [hb0]
        simp only [Bool.not_false, if_true]
        rw [dictContains_cons]
        have hne : (p.1 == k) = false := by
          apply beq_eq_false_iff_ne.mpr
          intro e
          rw [e, h] at hb0
          exact Bool.noConfusion hb0
        rw [hne, Bool.false_or]
        exact ih

theorem dictLookup_filter_not_mem {V : Type} (m : List (String × V))
    (s : List String) (k : String) (h : s.contains k = false) :
    dictLookup (m.filter (fun p => !(s.contains p.1))) k = dictLookup m k := by
  induction m with
  | nil => rfl
  | cons p t ih =>
      rw [List.filter_cons]
      by_cases hp : s.contains p.1 = true
      · simp only [hp, Bool.not_true, Bool.false_eq_true, if_false]
        rw [dictLookup_cons]
        have hne : (p.1 == k) = false := by
          apply beq_eq_false_iff_ne.mpr
          intro e
          rw [e, h] at hp
          exact Bool.noConfusion hp
        rw [hne]
        simp only [Bool.false_eq_true, if_false]
        exact ih
      · have hb0 : s.contains p.1 = false := Bool.eq_false_iff.mpr hp
        rw [hb0]
        simp only [Bool.not_false, if_true]
        rw [dictLookup_cons, dictLookup_cons]
        by_cases he : p.1 = k
        · simp [he]
        · have hne : (p.1 == k) = false := beq_eq_false_iff_ne.mpr he
          rw [hne]
          simp only [Bool.false_eq_true, if_false]
          exact ih

theorem setAdd_mem_iff (s : List String) (a k : String) :
    k ∈ setAdd s a ↔ (k = a ∨ k ∈ s) := by
  unfold setAdd
  by_cases h : a ∈ s
  · simp only [h, if_true]
    constructor
    · exact Or.inr
    · rintro (e | hk)
      · exact e ▸ h
      · exact hk
  · simp only [h, if_false]
    exact List.mem_cons

theorem dictContains_eq_false_of_not_mem {V : Type} (m : List (String × V))
    (k : String) (h : k ∉ m.map Prod.fst) : dictContains m k = false := by
  apply Bool.eq_false_iff.mpr
  intro hc
  exact h ((dictContains_iff_mem m k).mp hc)

theorem validate_ok_none {V : Type} (ext : Ext V) (ns : NS V) (attr : String)
    (hv : regexMatch attr = true) (hc : dictContains ns.map attr = false)
    (hres : ns.scopes = [] ∨
      (RESERVED_KEYWORDS.contains (strLower attr) = false ∧
        ext.opcodes.contains (strUpper attr) = false)) :
    validate_assignment ext ns attr = .ok none := by
  unfold validate_assignment
  rw [if_neg (by simp [hv])]
  rw [if_neg (by simp [hc])]
  by_cases hs : ns.scopes = []
  · rw [if_pos (by simp [hs])]
  · rw [if_neg (by simp [List.isEmpty_iff, hs])]
    have hres2 := hres.resolve_left hs
    have hcond : (RESERVED_KEYWORDS.contains (strLower attr) ||
        ext.opcodes.contains (strUpper attr)) = false := by
      rw [hres2.1, hres2.2]
      rfl
    rw [if_neg (by rw [hcond]; exact Bool.false_ne_true)]

theorem validate_reserved {V : Type} (ext : Ext V) (ns : NS V) (attr : String)
    (hv : regexMatch attr = true) (hc : dictContains ns.map attr = false)
    (hs : ns.scopes ≠ [])
    (hres : (RESERVED_KEYWORDS.contains (strLower attr) ||
      ext.opcodes.contains (strUpper attr)) = true) :
    validate_assignment ext ns attr = .error (.structureExceptionReserved attr) := by
  unfold validate_assignment
  rw [if_neg (by simp [hv])]
  rw [if_neg (by simp [hc])]
  rw [if_neg (by simp [List.isEmpty_iff, hs])]
  rw [if_pos (by simp only [Bool.or_eq_true] at hres ⊢; exact hres)]

theorem validate_bootstrap_ok {V : Type} (ext : Ext V) (m : List (String × V))
    (sc : List (List String)) (attr : String)
    (hc : dictContains m attr = false) (hs : sc = []) :
    ∃ r, validate_assignment ext ⟨m, sc⟩ attr = .ok r := by
  unfold validate_assignment
  cases hr : regexMatch attr
  · exact ⟨some (.structureExceptionInvalidChars attr), by rw [if_pos (by simp [hr])]⟩
  · refine ⟨none, ?_⟩
    rw [if_neg (by simp [hr])]
    rw [if_neg (by simp [hc])]
    rw [if_pos (by simp [hs])]

theorem setitem_eq_of_validate_ok {V : Type} (ext : Ext V) (ns : NS V)
    (attr : String) (obj : V) (r : Option (VyperError V))
    (h : validate_assignment ext ns attr = .ok r) :
    setitem ext ns attr obj = .ok ⟨dictSet ns.map attr obj,
      match ns.scopes with
      | [] => []
      | s :: rest => setAdd s attr :: rest⟩ := by
  unfold setitem
  rw [h]
  rfl

theorem setitem_error_of_validate_error {V : Type} (ext : Ext V) (ns : NS V)
    (attr : String) (obj : V) (e : VyperError V)
    (h : validate_assignment ext ns attr = .error e) :
    setitem ext ns attr obj = .error e := by
  unfold setitem
  rw [h]
  rfl

/-- Claim C1 (status: code_bug).  The source line
`return StructureException(...)` in `validate_assignment` RETURNS the
exception instead of raising it, so inserting a malformed identifier such as
`"1abc"` or `"foo-bar"` is NOT rejected: the binding is created, the name is
recorded in the open scope set, and the call returns normally — contradicting
the claim that a `StructureException` is raised and the state left unchanged. -/
theorem malformed_insert_accepted :
    regexMatch "1abc" = false ∧ regexMatch "foo-bar" = false ∧
    validate_assignment ext0 ⟨[], [[]]⟩ "1abc" =
      .ok (some (.structureExceptionInvalidChars "1abc")) ∧
    setitem ext0 ⟨[], [[]]⟩ "1abc" 0 = .ok ⟨[("1abc", 0)], [["1abc"]]⟩ ∧
    setitem ext0 ⟨[], [[]]⟩ "foo-bar" 0 = .ok ⟨[("foo-bar", 0)], [["foo-bar"]]⟩ := by
  exact ⟨by decide, by decide, rfl, rfl, rfl⟩

/-- Claim C6 (status: confirmed).  Exiting a scope with an empty Scope Stack
raises `CompilerPanic` (raised before any mutation), an error kind distinct
from every user-facing error kind. -/
theorem exit_scope_empty_panic {V : Type} (ns : NS V) (h : ns.scopes = []) :
    exitScope ns = .error (.compilerPanic "Bad use of namespace as a context manager") ∧
    isUserFacing (VyperError.compilerPanic (V := V)
      "Bad use of namespace as a context manager") = false ∧
    (∀ e : VyperError V, isUserFacing e = true →
      VyperError.compilerPanic "Bad use of namespace as a context manager" ≠ e) := by
  refine ⟨?_, rfl, ?_⟩
  · obtain ⟨m, sc⟩ := ns
    simp only at h
    subst h
    rfl
  · intro e he hne
    rw [← hne] at he
    exact Bool.noConfusion he

/-- Claim C6 witness. -/
theorem exit_scope_empty_panic_witness :
    (⟨[("x", 0)], []⟩ : NS Nat).scopes = [] ∧
    exitScope (⟨[("x", 0)], []⟩ : NS Nat) =
      .error (.compilerPanic "Bad use of namespace as a context manager") :=
  ⟨rfl, (exit_scope_empty_panic (⟨[("x", 0)], []⟩ : NS Nat) rfl).1⟩

/-- Claim C9 (status: confirmed).  `lookup` returns the bound definition
exactly when the name is bound, raises `UndeclaredDefinition` exactly when it
is not, and never mutates the state (as a `step` it returns the state it was
given). -/
theorem lookup_spec {V : Type} (ns : NS V) (key : String) :
    (∀ v : V, (getitem ns key = .ok v ↔ dictLookup ns.map key = some v)) ∧
    (dictContains ns.map key = false ↔
      getitem ns key = .error (.undeclaredDefinition key)) ∧
    (∀ (ext : Ext V) (ns2 : NS V),
      step ext ns (Op.lookupOp key) = .ok ns2 → ns2 = ns) := by
  by_cases hc : dictContains ns.map key = true
  · have hsome : (dictLookup ns.map key).isSome = true :=
      (dictLookup_isSome_iff ns.map key).mpr hc
    obtain ⟨v0, hl⟩ := Option.isSome_iff_exists.mp hsome
    have hget : getitem ns key = .ok v0 := by
      unfold getitem
      rw [if_pos hc, hl]
    refine ⟨?_, ?_, ?_⟩
    · intro v
      rw [hget, hl]
      constructor
      · intro h
        injection h with h
        rw [h]
      · intro h
        injection h with h
        rw [h]
    · constructor
      · intro h
        rw [h] at hc
        exact Bool.noConfusion hc
      · intro h
        rw [hget] at h
        exact Except.noConfusion h
    · intro ext ns2 hstep
      have hstep2 : (getitem ns key >>= fun _ =>
          (Except.ok ns : Except (VyperError V) (NS V))) = .ok ns2 := hstep
      rw [hget] at hstep2
      have hstep3 : (Except.ok ns : Except (VyperError V) (NS V)) = .ok ns2 :=
        hstep2
      injection hstep3 with h
      exact h.symm
  · have hc2 : dictContains ns.map key = false := Bool.eq_false_iff.mpr hc
    have hget : getitem ns key = .error (.undeclaredDefinition key) := by
      unfold getitem
      rw [if_neg (by simp [hc2])]
    have hnone : dictLookup ns.map key = none :=
      (dictLookup_none_iff ns.map key).mpr hc2
    refine ⟨?_, ?_, ?_⟩
    · intro v
      rw [hget, hnone]
      constructor
      · intro h
        exact Except.noConfusion h
      · intro h
        exact Option.noConfusion h
    · exact ⟨fun _ => hget, fun _ => hc2⟩
    · intro ext ns2 hstep
      have hstep2 : (getitem ns key >>= fun _ =>
          (Except.ok ns : Except (VyperError V) (NS V))) = .ok ns2 := hstep
      rw [hget] at hstep2
      have hstep3 : (Except.error (VyperError.undeclaredDefinition key) :
          Except (VyperError V) (NS V)) = .ok ns2 := hstep2
      exact Except.noConfusion hstep3

/-- Claim C9 witness. -/
theorem lookup_spec_witness :
    getitem (⟨[("x", 7)], []⟩ : NS Nat) "x" = .ok 7 ∧
    getitem (⟨[("x", 7)], []⟩ : NS Nat) "y" =
      .error (.undeclaredDefinition "y") :=
  ⟨((lookup_spec (⟨[("x", 7)], []⟩ : NS Nat) "x").1 7).mpr rfl,
    (lookup_spec (⟨[("x", 7)], []⟩ : NS Nat) "y").2.1.mp rfl⟩

theorem getitem_eq_ok {V : Type} (ns : NS V) (k : String) (v : V)
    (h : dictLookup ns.map k = some v) : getitem ns k = .ok v := by
  have hc : dictContains ns.map k = true := by
    rw [← dictLookup_isSome_iff, h]
    rfl
  unfold getitem
  rw [if_pos hc, h]

/-- Claim C2 (status: confirmed).  Inserting a syntactically valid,
non-reserved, unbound name and looking it up in the same state returns
exactly the inserted definition. -/
theorem insert_then_lookup {V : Type} (ext : Ext V) (ns : NS V) (name : String)
    (d : V)
    (hvalid : regexMatch name = true)
    (hunbound : dictContains ns.map name = false)
    (hkw : RESERVED_KEYWORDS.contains (strLower name) = false)
    (hop : ext.opcodes.contains (strUpper name) = false) :
    ∃ ns2, setitem ext ns name d = .ok ns2 ∧ getitem ns2 name = .ok d := by
  have hval := validate_ok_none ext ns name hvalid hunbound (Or.inr ⟨hkw, hop⟩)
  refine ⟨_, setitem_eq_of_validate_ok ext ns name d none hval, ?_⟩
  exact getitem_eq_ok _ name d (dictLookup_set_self ns.map name d hunbound)

/-- Claim C2 witness. -/
theorem insert_then_lookup_witness :
    (regexMatch "x" = true ∧ dictContains ([] : List (String × Nat)) "x" = false ∧
      RESERVED_KEYWORDS.contains (strLower "x") = false ∧
      ext0.opcodes.contains (strUpper "x") = false) ∧
    ∃ ns2, setitem ext0 ⟨[], []⟩ "x" 0 = .ok ns2 ∧ getitem ns2 "x" = .ok 0 :=
  ⟨⟨by decide, rfl, by decide, rfl⟩,
    insert_then_lookup ext0 ⟨[], []⟩ "x" 0 (by decide) rfl (by decide) rfl⟩

/-- Claim C5 (status: confirmed).  For an unbound, syntactically valid name
whose lowercase form is a reserved keyword or whose uppercase form is an
opcode: with at least one open scope the insert raises a reserved-keyword
`StructureException`; with the Scope Stack empty (bootstrap) the identical
insert succeeds and binds permanently (no scope set records it). -/
theorem insert_reserved_split {V : Type} (ext : Ext V) (ns : NS V)
    (name : String) (d : V)
    (hvalid : regexMatch name = true)
    (hunbound : dictContains ns.map name = false)
    (hres : (RESERVED_KEYWORDS.contains (strLower name) ||
      ext.opcodes.contains (strUpper name)) = true) :
    (ns.scopes ≠ [] →
      setitem ext ns name d = .error (.structureExceptionReserved name)) ∧
    (ns.scopes = [] →
      setitem ext ns name d = .ok ⟨dictSet ns.map name d, []⟩) := by
  constructor
  · intro hs
    exact setitem_error_of_validate_error ext ns name d _
      (validate_reserved ext ns name hvalid hunbound hs hres)
  · intro hs
    have hval := validate_ok_none ext ns name hvalid hunbound (Or.inl hs)
    rw [setitem_eq_of_validate_ok ext ns name d none hval, hs]

/-- Claim C5 witness: `"if"` is rejected inside a scope and accepted at
bootstrap. -/
theorem insert_reserved_split_witness :
    setitem ext0 ⟨[], [[]]⟩ "if" 0 = .error (.structureExceptionReserved "if") ∧
    setitem ext0 ⟨[], []⟩ "if" 0 = .ok ⟨dictSet [] "if" 0, []⟩ :=
  ⟨(insert_reserved_split ext0 ⟨[], [[]]⟩ "if" 0 (by decide) rfl (by decide)).1
      (by decide),
    (insert_reserved_split ext0 ⟨[], []⟩ "if" 0 (by decide) rfl (by decide)).2
      rfl⟩

/-- Claim C4 counterexample (claim as stated is FALSE on the code): by the C1
bug a malformed name such as `"1abc"` can become bound (reachable from a fresh
namespace); re-inserting it raises no `NamespaceCollision` at all — the
malformed-name early `return` skips the collision check — and the binding is
silently OVERWRITTEN (value 0 becomes 1), violating both the
always-rejected and the state-unchanged parts of the claim. -/
theorem collision_claim_fails :
    run ext0 ⟨[], []⟩ [.enterOp, .insertOp "1abc" 0] =
      .ok ⟨[("1abc", 0)], [["1abc"]]⟩ ∧
    setitem ext0 ⟨[("1abc", 0)], [["1abc"]]⟩ "1abc" 1 =
      .ok ⟨[("1abc", 1)], [["1abc"]]⟩ :=
  ⟨rfl, rfl⟩

/-- Claim C4 as amended (status: corrected): for every bound name that passes
the identifier grammar, insert raises `NamespaceCollision` — the builtin
variant when the name is recorded in no open scope set, otherwise the
already-declared variant carrying the prior definition — and the error is
raised inside validation, before any mutation. -/
theorem insert_collision_variants {V : Type} (ext : Ext V) (ns : NS V)
    (name : String) (d prior : V)
    (hvalid : regexMatch name = true)
    (hbound : dictLookup ns.map name = some prior) :
    (scopesRecord ns name = false →
      validate_assignment ext ns name = .error (.namespaceCollisionBuiltin name) ∧
      setitem ext ns name d = .error (.namespaceCollisionBuiltin name)) ∧
    (scopesRecord ns name = true →
      validate_assignment ext ns name =
        .error (.namespaceCollisionDeclared name prior) ∧
      setitem ext ns name d = .error (.namespaceCollisionDeclared name prior)) := by
  have hc : dictContains ns.map name = true := by
    rw [← dictLookup_isSome_iff, hbound]
    rfl
  constructor
  · intro hrec
    have hval : validate_assignment ext ns name =
        .error (.namespaceCollisionBuiltin name) := by
      unfold validate_assignment
      rw [if_neg (by simp [hvalid])]
      rw [if_pos hc, if_pos hrec]
    exact ⟨hval, setitem_error_of_validate_error ext ns name d _ hval⟩
  · intro hrec
    have hval : validate_assignment ext ns name =
        .error (.namespaceCollisionDeclared name prior) := by
      unfold validate_assignment
      rw [if_neg (by simp [hvalid])]
      rw [if_pos hc]
      rw [if_neg (by rw [hrec]; exact fun h => Bool.noConfusion h)]
      rw [hbound]
    exact ⟨hval, setitem_error_of_validate_error ext ns name d _ hval⟩

/-- Claim C4 witness: both collision variants at concrete states. -/
theorem insert_collision_variants_witness :
    setitem ext0 ⟨[("x", 5)], []⟩ "x" 1 =
      .error (.namespaceCollisionBuiltin "x") ∧
    setitem ext0 ⟨[("y", 6)], [["y"]]⟩ "y" 1 =
      .error (.namespaceCollisionDeclared "y" 6) :=
  ⟨((insert_collision_variants ext0 ⟨[("x", 5)], []⟩ "x" 1 5 (by decide) rfl).1
      rfl).2,
    ((insert_collision_variants ext0 ⟨[("y", 6)], [["y"]]⟩ "y" 1 6 (by decide)
      rfl).2 rfl).2⟩

/-- Claim C3 counterexample (claim as stated is FALSE on the code): a
reachable state (built from a fresh namespace using only public operations,
via the C1 bug) has one open scope whose set records `"1abc"` while the
mapping no longer contains it; `exit_scope` on that state raises `KeyError`
instead of removing the recorded names and popping the set. -/
theorem exit_scope_claim_fails :
    run ext0 ⟨[], []⟩
      [.enterOp, .insertOp "1abc" 0, .enterOp, .insertOp "1abc" 0, .exitOp] =
      .ok ⟨[], [["1abc"]]⟩ ∧
    exitScope (⟨[], [["1abc"]]⟩ : NS Nat) = .error (.keyError "1abc") :=
  ⟨rfl, rfl⟩

/-- Claim C3 as amended (status: corrected): provided every name recorded in
the innermost scope set is a key of the mapping (true whenever no malformed
identifier was ever inserted), `exit_scope` pops that set and removes exactly
its names; every other binding keeps its definition. -/
theorem exit_scope_removes_inner {V : Type} (ns : NS V) (s : List String)
    (rest : List (List String))
    (hscopes : ns.scopes = s :: rest) (hnd : s.Nodup)
    (hpresent : ∀ k ∈ s, dictContains ns.map k = true) :
    ∃ ns2, exitScope ns = .ok ns2 ∧ ns2.scopes = rest ∧
      (∀ k ∈ s, dictContains ns2.map k = false) ∧
      (∀ k, k ∉ s → dictLookup ns2.map k = dictLookup ns.map k) := by
  obtain ⟨m, sc⟩ := ns
  simp only at hscopes hpresent
  subst hscopes
  refine ⟨⟨m.filter (fun p => !(s.contains p.1)), rest⟩, ?_, rfl, ?_, ?_⟩
  · show exitScope ⟨m, s :: rest⟩ = _
    unfold exitScope
    simp only
    rw [delAll_spec s m hnd hpresent]
    rfl
  · intro k hk
    have hsk : s.contains k = true := by
      simp [List.contains, List.elem_eq_mem, hk]
    exact dictContains_filter_mem m s k hsk
  · intro k hk
    have hsk : s.contains k = false := by
      simp [List.contains, List.elem_eq_mem, hk]
    exact dictLookup_filter_not_mem m s k hsk

/-- Claim C3 witness: exiting the inner of two scopes removes exactly its
name. -/
theorem exit_scope_removes_inner_witness :
    ((⟨[("a", 1), ("b", 2)], [["b"], ["a"]]⟩ : NS Nat).scopes =
        ["b"] :: [["a"]] ∧ (["b"] : List String).Nodup ∧
      (∀ k ∈ (["b"] : List String), dictContains [("a", 1), ("b", 2)] k = true)) ∧
    ∃ ns2, exitScope (⟨[("a", 1), ("b", 2)], [["b"], ["a"]]⟩ : NS Nat) =
        .ok ns2 ∧ ns2.scopes = [["a"]] ∧
      (∀ k ∈ (["b"] : List String), dictContains ns2.map k = false) ∧
      (∀ k, k ∉ (["b"] : List String) →
        dictLookup ns2.map k = dictLookup [("a", 1), ("b", 2)] k) :=
  ⟨⟨rfl, by decide, by decide⟩,
    exit_scope_removes_inner ⟨[("a", 1), ("b", 2)], [["b"], ["a"]]⟩ ["b"]
      [["a"]] rfl (by decide) (by decide)⟩

theorem except_bind_ok {E A B : Type} (a : A) (f : A → Except E B) :
    ((Except.ok a : Except E A) >>= f) = f a := rfl

theorem update_fresh_scoped {V : Type} (ext : Ext V) (entries : List (String × V)) :
    ∀ (m : List (String × V)) (s : List String) (rest : List (List String)),
    (entries.map Prod.fst).Nodup →
    (∀ k ∈ entries.map Prod.fst, dictContains m k = false ∧ regexMatch k = true ∧
      RESERVED_KEYWORDS.contains (strLower k) = false ∧
      ext.opcodes.contains (strUpper k) = false) →
    ∃ s2, update ext ⟨m, s :: rest⟩ entries = .ok ⟨m ++ entries, s2 :: rest⟩ ∧
      ∀ k, k ∈ s2 ↔ (k ∈ entries.map Prod.fst ∨ k ∈ s) := by
  induction entries with
  | nil =>
      intro m s rest _ _
      refine ⟨s, ?_, fun k => by simp⟩
      rw [List.append_nil]
      rfl
  | cons e es ih =>
      intro m s rest hnd hfresh
      obtain ⟨k0, v0⟩ := e
      have hk0 := hfresh k0 (by simp)
      have hval : validate_assignment ext ⟨m, s :: rest⟩ k0 = .ok none :=
        validate_ok_none ext ⟨m, s :: rest⟩ k0 hk0.2.1 hk0.1
          (Or.inr ⟨hk0.2.2.1, hk0.2.2.2⟩)
      have hds : dictSet m k0 v0 = m ++ [(k0, v0)] := by
        unfold dictSet
        rw [hk0.1]
        simp
      have hset : setitem ext ⟨m, s :: rest⟩ k0 v0 =
          .ok ⟨m ++ [(k0, v0)], setAdd s k0 :: rest⟩ := by
        rw [setitem_eq_of_validate_ok ext ⟨m, s :: rest⟩ k0 v0 none hval, hds]
      have hstep : update ext ⟨m, s :: rest⟩ ((k0, v0) :: es) =
          update ext ⟨m ++ [(k0, v0)], setAdd s k0 :: rest⟩ es := by
        simp only [update, List.foldlM, hset]
        rfl
      have hnd2 : (es.map Prod.fst).Nodup := by
        simp only [List.map_cons, List.nodup_cons] at hnd
        exact hnd.2
      have hk0notin : k0 ∉ es.map Prod.fst := by
        simp only [List.map_cons, List.nodup_cons] at hnd
        exact hnd.1
      have hfresh2 : ∀ k ∈ es.map Prod.fst,
          dictContains (m ++ [(k0, v0)]) k = false ∧ regexMatch k = true ∧
          RESERVED_KEYWORDS.contains (strLower k) = false ∧
          ext.opcodes.contains (strUpper k) = false := by
        intro k hk
        have hk2 := hfresh k (by simp [hk])
        refine ⟨?_, hk2.2.1, hk2.2.2.1, hk2.2.2.2⟩
        rw [dictContains_append_single, hk2.1]
        have h2 : (k0 == k) = false :=
          beq_eq_false_iff_ne.mpr (fun e => hk0notin (e ▸ hk))
        rw [h2]
        rfl
      obtain ⟨s2, hupd, hmem⟩ := ih (m ++ [(k0, v0)]) (setAdd s k0) rest hnd2 hfresh2
      refine ⟨s2, ?_, ?_⟩
      · rw [hstep, hupd, List.append_assoc]
        rfl
      · intro k
        have hthis := hmem k
        rw [setAdd_mem_iff] at hthis
        rw [hthis]
        simp only [List.map_cons, List.mem_cons]
        tauto

/-- Claim C7 (status: confirmed).  `enter_scope` pushes exactly one new scope
set.  On EVERY nested call (stack non-empty) the new set is empty, the
mapping is untouched and no mutable-environment entry is re-inserted — this
conjunct holds unconditionally, for every state, in particular for the real
nested calls in which the mutable vars are already bound.  On the first call
(stack was empty) every mutable-environment entry is inserted and recorded
in the newly pushed set; only this conjunct assumes the provider supplies
insertable entries (distinct valid non-reserved names unbound in the current
mapping), which the program's environment provider guarantees. -/
theorem enter_scope_spec {V : Type} (ext : Ext V) (ns : NS V) :
    (ns.scopes ≠ [] → enter_scope ext ns = .ok ⟨ns.map, [] :: ns.scopes⟩) ∧
    (ns.scopes = [] →
      (ext.mutableVars.map Prod.fst).Nodup →
      (∀ k ∈ ext.mutableVars.map Prod.fst,
        dictContains ns.map k = false ∧ regexMatch k = true ∧
        RESERVED_KEYWORDS.contains (strLower k) = false ∧
        ext.opcodes.contains (strUpper k) = false) →
      ∃ s2, enter_scope ext ns = .ok ⟨ns.map ++ ext.mutableVars, [s2]⟩ ∧
        ∀ k, k ∈ s2 ↔ k ∈ ext.mutableVars.map Prod.fst) := by
  constructor
  · intro hs
    unfold enter_scope
    cases hsc : ns.scopes with
    | nil => exact absurd hsc hs
    | cons a t => rfl
  · intro hs hnd hfresh
    have henter : enter_scope ext ns =
        update ext ⟨ns.map, [] :: []⟩ ext.mutableVars := by
      unfold enter_scope
      rw [hs]
      rfl
    obtain ⟨s2, hupd, hmem⟩ :=
      update_fresh_scoped ext ext.mutableVars ns.map [] [] hnd hfresh
    refine ⟨s2, ?_, ?_⟩
    · rw [henter, hupd]
    · intro k
      rw [hmem k]
      simp

/-- Claim C7 witness: first scope entry inserts the mutable var `"self"` into
the new scope set; then a nested entry ON THE RESULTING STATE — where
`"self"` is bound, as in every real nested call — pushes an empty set,
leaves the mapping alone and re-inserts nothing. -/
theorem enter_scope_spec_witness :
    (∃ s2, enter_scope ext1 ⟨[], []⟩ = .ok ⟨[] ++ ext1.mutableVars, [s2]⟩ ∧
      ∀ k, k ∈ s2 ↔ k ∈ ext1.mutableVars.map Prod.fst) ∧
    enter_scope ext1 ⟨[("self", 7)], [["self"]]⟩ =
      .ok ⟨[("self", 7)], [[], ["self"]]⟩ :=
  ⟨(enter_scope_spec ext1 ⟨[], []⟩).2 rfl (by decide) (by decide),
    (enter_scope_spec ext1 ⟨[("self", 7)], [["self"]]⟩).1 (by decide)⟩

theorem update_fresh_bootstrap {V : Type} (ext : Ext V)
    (entries : List (String × V)) :
    ∀ m : List (String × V), (entries.map Prod.fst).Nodup →
    (∀ k ∈ entries.map Prod.fst, dictContains m k = false) →
    update ext ⟨m, []⟩ entries = .ok ⟨m ++ entries, []⟩ := by
  induction entries with
  | nil =>
      intro m _ _
      rw [List.append_nil]
      rfl
  | cons e es ih =>
      intro m hnd hfresh
      obtain ⟨k0, v0⟩ := e
      have hc0 : dictContains m k0 = false := hfresh k0 (by simp)
      obtain ⟨r, hval⟩ := validate_bootstrap_ok ext m [] k0 hc0 rfl
      have hds : dictSet m k0 v0 = m ++ [(k0, v0)] := by
        unfold dictSet
        rw [hc0]
        simp
      have hset : setitem ext ⟨m, []⟩ k0 v0 = .ok ⟨m ++ [(k0, v0)], []⟩ := by
        rw [setitem_eq_of_validate_ok ext ⟨m, []⟩ k0 v0 r hval, hds]
      have hstep : update ext ⟨m, []⟩ ((k0, v0) :: es) =
          update ext ⟨m ++ [(k0, v0)], []⟩ es := by
        simp only [update, List.foldlM, hset]
        rfl
      have hnd2 : (es.map Prod.fst).Nodup := by
        simp only [List.map_cons, List.nodup_cons] at hnd
        exact hnd.2
      have hk0notin : k0 ∉ es.map Prod.fst := by
        simp only [List.map_cons, List.nodup_cons] at hnd
        exact hnd.1
      have hfresh2 : ∀ k ∈ es.map Prod.fst,
          dictContains (m ++ [(k0, v0)]) k = false := by
        intro k hk
        rw [dictContains_append_single, hfresh k (by simp [hk])]
        have h2 : (k0 == k) = false :=
          beq_eq_false_iff_ne.mpr (fun e => hk0notin (e ▸ hk))
        rw [h2]
        rfl
      rw [hstep, ih (m ++ [(k0, v0)]) hnd2 hfresh2, List.append_assoc]
      rfl

/-- Claim C8 (status: confirmed).  `clear` (the reset operation) is
state-independent and equal to fresh construction: the resulting mapping
holds exactly the three bootstrap providers' entries and the Scope Stack is
empty.  The hypothesis says the providers' names are pairwise distinct, which
the program's registries guarantee. -/
theorem clear_resets {V : Type} (ext : Ext V) (ns : NS V)
    (hnd : ((ext.types ++ ext.constantVars ++ ext.builtinFunctions).map
      Prod.fst).Nodup) :
    clearNs ext ns = mkNamespace ext ∧
    mkNamespace ext =
      .ok ⟨ext.types ++ ext.constantVars ++ ext.builtinFunctions, []⟩ := by
  refine ⟨rfl, ?_⟩
  rw [List.map_append, List.map_append] at hnd
  have h1 := List.nodup_append.mp hnd
  have h2 := List.nodup_append.mp h1.1
  have ht : update ext ⟨[], []⟩ ext.types = .ok ⟨ext.types, []⟩ := by
    have hu := update_fresh_bootstrap ext ext.types [] h2.1 (fun k _ => rfl)
    rwa [List.nil_append] at hu
  have hc : update ext ⟨ext.types, []⟩ ext.constantVars =
      .ok ⟨ext.types ++ ext.constantVars, []⟩ :=
    update_fresh_bootstrap ext ext.constantVars ext.types h2.2.1
      (fun k hk => dictContains_eq_false_of_not_mem _ _
        (fun hmem => h2.2.2 hmem hk))
  have hb : update ext ⟨ext.types ++ ext.constantVars, []⟩
      ext.builtinFunctions =
      .ok ⟨ext.types ++ ext.constantVars ++ ext.builtinFunctions, []⟩ :=
    update_fresh_bootstrap ext ext.builtinFunctions
      (ext.types ++ ext.constantVars) h1.2.1
      (fun k hk => dictContains_eq_false_of_not_mem _ _
        (fun hmem => h1.2.2 (by rwa [List.map_append] at hmem) hk))
  show namespace_init ext [] = _
  unfold namespace_init
  rw [ht, except_bind_ok, hc, except_bind_ok, hb]

/-- Claim C8 witness. -/
theorem clear_resets_witness :
    ((ext2.types ++ ext2.constantVars ++ ext2.builtinFunctions).map
      Prod.fst).Nodup ∧
    clearNs ext2 ⟨[("junk", 9)], [["junk"]]⟩ = mkNamespace ext2 ∧
    mkNamespace ext2 =
      .ok ⟨ext2.types ++ ext2.constantVars ++ ext2.builtinFunctions, []⟩ :=
  ⟨by decide,
    (clear_resets ext2 ⟨[("junk", 9)], [["junk"]]⟩ (by decide)).1,
    (clear_resets ext2 ⟨[("junk", 9)], [["junk"]]⟩ (by decide)).2⟩

/-- Claim C10 (status: code_bug).  The claimed invariant — every name
recorded on the Scope Stack is a key of the mapping — is violated in a state
reachable from a fresh namespace by public operations alone: because of the
C1 bug the malformed name `"1abc"` can be inserted (and recorded) in two
nested scopes; exiting the inner scope deletes the single dict entry while
the outer scope set still records the name, and the next scope exit's
deletion then raises `KeyError`. -/
theorem scope_inv_violated :
    mkNamespace ext0 = .ok ⟨[], []⟩ ∧
    run ext0 ⟨[], []⟩
      [.enterOp, .insertOp "1abc" 0, .enterOp, .insertOp "1abc" 0, .exitOp] =
      .ok ⟨[], [["1abc"]]⟩ ∧
    scopeInv (⟨[], [["1abc"]]⟩ : NS Nat) = false ∧
    run ext0 ⟨[], []⟩
      [.enterOp, .insertOp "1abc" 0, .enterOp, .insertOp "1abc" 0, .exitOp,
        .exitOp] = .error (.keyError "1abc") :=
  ⟨rfl, rfl, rfl, rfl⟩

end VyperNS
